import Mathlib

/-!
Verification of the in-browser waveform encoder of the AIEyes frontend
(`src/aieyes-frontend/src/App.jsx`): `interleave`, `encodeWAV` (the spec's
`quantizeAndFrame`), `writeString`, and the decode stage of `toWavBlob`.

Modelling conventions (shallow embedding of the JavaScript source):
* JavaScript numbers carried in `Float32Array`s are modelled as `Option ℚ`,
  with `none` standing for NaN.  Reading a typed array past its end yields
  `undefined`, which a `Float32Array` stores as NaN; writing past the end is
  silently dropped — `List.set` has exactly that semantics.
* Byte buffers (`ArrayBuffer` viewed through a `DataView`) are `List Nat`
  with every element kept below 256 by the write primitives, which apply
  the `ToUint8`/`ToInt16`/`ToUint32` conversions of the DataView setters
  (truncation toward zero, then reduction mod 2^w).
* `DataView` setters throw a `RangeError` on out-of-range offsets; the
  `...Checked` variants model that with `Option`, and the totality theorem
  shows the unchecked and checked builds agree.
-/

namespace AIEyes

/-- A JavaScript floating-point value: `none` is NaN, `some q` an ordinary
(idealised, rational) number. -/
abbrev JSVal := Option ℚ

/-- Typed-array read `xs[i]`: the element when in range, `undefined`
(stored back as NaN, hence `none`) when past the end. -/
def tget (xs : List JSVal) (i : Nat) : JSVal := xs.getD i none

/-- Typed-array write `xs[i] = v`: stores when `i` is in range, silently
does nothing otherwise (`List.set` semantics match). -/
def tset (xs : List JSVal) (i : Nat) (v : JSVal) : List JSVal := xs.set i v

/-- The body of `interleave`'s `for` loop (`App.jsx` lines 36–39):
`result[index++] = L[i]; result[index++] = R[i];` for `i` from the given
start up to `L.length`. -/
def interleaveLoop (L R : List JSVal) (i : Nat) (index : Nat)
    (result : List JSVal) : List JSVal :=
  if h : i < L.length then
    interleaveLoop L R (i + 1) (index + 2)
      (tset (tset result index (tget L i)) (index + 1) (tget R i))
  else result
termination_by L.length - i

/-- Function `interleave(L, R)` (`App.jsx` lines 31–41): allocates a
`Float32Array` of length `L.length + R.length` (zero-initialised) and runs
the copy loop from `i = 0`, `index = 0`. -/
def interleave (L R : List JSVal) : List JSVal :=
  interleaveLoop L R 0 0 (List.replicate (L.length + R.length) (some 0))

/-- JavaScript `Math.min(a, b)`: NaN if either operand is NaN. -/
def jsMin (a b : JSVal) : JSVal :=
  match a, b with
  | some x, some y => some (min x y)
  | _, _ => none

/-- JavaScript `Math.max(a, b)`: NaN if either operand is NaN. -/
def jsMax (a b : JSVal) : JSVal :=
  match a, b with
  | some x, some y => some (max x y)
  | _, _ => none

/-- JavaScript multiplication: NaN if either operand is NaN. -/
def jsMul (a b : JSVal) : JSVal :=
  match a, b with
  | some x, some y => some (x * y)
  | _, _ => none

/-- Truncation toward zero, the integer conversion JavaScript applies to a
finite number before storing it through a `DataView` integer setter. -/
def jsTrunc (q : ℚ) : ℤ :=
  if 0 ≤ q then ⌊q⌋ else ⌈q⌉

/-- The `ToInt16`/`ToUint16` conversion of `DataView.setInt16`, returning
the stored 16-bit pattern as a `Nat`: NaN becomes 0, a finite number is
truncated toward zero and reduced mod 2^16. -/
def toUint16Val (v : JSVal) : Nat :=
  match v with
  | none => 0
  | some q => (jsTrunc q % 65536).toNat

/-- Write `view.setUint8(off, v)` on a byte buffer. -/
def setUint8 (buf : List Nat) (off v : Nat) : List Nat :=
  buf.set off (v % 256)

/-- Write `view.setUint16(off, v, true)`: the two bytes of `v mod 2^16`,
little-endian. -/
def setUint16 (buf : List Nat) (off v : Nat) : List Nat :=
  (buf.set off (v % 256)).set (off + 1) (v / 256 % 256)

/-- Write `view.setUint32(off, v, true)`: the four bytes of `v mod 2^32`,
little-endian. -/
def setUint32 (buf : List Nat) (off v : Nat) : List Nat :=
  (((buf.set off (v % 256)).set (off + 1) (v / 256 % 256)).set
      (off + 2) (v / 65536 % 256)).set (off + 3) (v / 16777216 % 256)

/-- Write `view.setInt16(off, v, true)`: the 16-bit pattern of `v`,
little-endian. -/
def setInt16 (buf : List Nat) (off : Nat) (v : JSVal) : List Nat :=
  (buf.set off (toUint16Val v % 256)).set (off + 1) (toUint16Val v / 256 % 256)

/-- Values `text.charCodeAt(i)` for every index of a string. -/
def strCodes (s : String) : List Nat := s.toList.map Char.toNat

/-- Function `writeString(view, offset, text)` (`App.jsx` lines 74–78). -/
def writeString (buf : List Nat) (off : Nat) : List Nat → List Nat
  | [] => buf
  | c :: cs => writeString (setUint8 buf off c) (off + 1) cs

/-- The sample-quantisation loop of `encodeWAV` (`App.jsx` lines 65–69),
consuming the samples in index order:
`let s = Math.max(-1, Math.min(1, samples[i])); view.setInt16(offset, s * 0x7fff, true);`
with `offset` advancing by 2 per sample. -/
def sampleLoop : List JSVal → List Nat → Nat → List Nat
  | [], buf, _ => buf
  | s :: rest, buf, offset =>
      sampleLoop rest
        (setInt16 buf offset (jsMul (jsMax (some (-1)) (jsMin (some 1) s)) (some 32767)))
        (offset + 2)

/-- Function `encodeWAV(samples, numChannels, sampleRate, bitDepth)`
(`App.jsx` lines 43–72). -/
def encodeWAV (samples : List JSVal) (numChannels sampleRate bitDepth : Nat) :
    List Nat :=
  let bytesPerSample := bitDepth / 8
  let blockAlign := numChannels * bytesPerSample
  let buffer := List.replicate (44 + samples.length * bytesPerSample) 0
  let b1 := writeString buffer 0 (strCodes "RIFF")
  let b2 := setUint32 b1 4 (36 + samples.length * bytesPerSample)
  let b3 := writeString b2 8 (strCodes "WAVE")
  let b4 := writeString b3 12 (strCodes "fmt ")
  let b5 := setUint32 b4 16 16
  let b6 := setUint16 b5 20 1
  let b7 := setUint16 b6 22 numChannels
  let b8 := setUint32 b7 24 sampleRate
  let b9 := setUint32 b8 28 (sampleRate * blockAlign)
  let b10 := setUint16 b9 32 blockAlign
  let b11 := setUint16 b10 34 bitDepth
  let b12 := writeString b11 36 (strCodes "data")
  let b13 := setUint32 b12 40 (samples.length * bytesPerSample)
  sampleLoop samples b13 44

/-- The spec's `quantizeAndFrame(samples, channels, sampleRate)`:
`encodeWAV` at the bit depth 16 fixed by `toWavBlob` (`App.jsx` line 15). -/
def quantizeAndFrame (samples : List JSVal) (channels sampleRate : Nat) :
    List Nat :=
  encodeWAV samples channels sampleRate 16

/-- Read one byte of the buffer (0 past the end, used only in range). -/
def readByte (buf : List Nat) (off : Nat) : Nat := buf.getD off 0

/-- Standard little-endian unsigned 16-bit read. -/
def readUInt16LE (buf : List Nat) (off : Nat) : Nat :=
  readByte buf off + 256 * readByte buf (off + 1)

/-- Standard little-endian unsigned 32-bit read. -/
def readUInt32LE (buf : List Nat) (off : Nat) : Nat :=
  readByte buf off + 256 * readByte buf (off + 1) +
    65536 * readByte buf (off + 2) + 16777216 * readByte buf (off + 3)

/-- Standard little-endian signed 16-bit read (what a PCM reader applies
to each payload sample). -/
def readInt16LE (buf : List Nat) (off : Nat) : ℤ :=
  let u := readUInt16LE buf off
  if u < 32768 then (u : ℤ) else (u : ℤ) - 65536

/-- A `DataView` setter throws `RangeError` out of range: the checked write
primitive, `none` modelling the throw. -/
def setByteChecked (buf : List Nat) (off v : Nat) : Option (List Nat) :=
  if off < buf.length then some (buf.set off v) else none

/-- Checked `setUint8`. -/
def setUint8Checked (buf : List Nat) (off v : Nat) : Option (List Nat) :=
  setByteChecked buf off (v % 256)

/-- Checked `setUint16` (little-endian). -/
def setUint16Checked (buf : List Nat) (off v : Nat) : Option (List Nat) := do
  let b1 ← setByteChecked buf off (v % 256)
  setByteChecked b1 (off + 1) (v / 256 % 256)

/-- Checked `setUint32` (little-endian). -/
def setUint32Checked (buf : List Nat) (off v : Nat) : Option (List Nat) := do
  let b1 ← setByteChecked buf off (v % 256)
  let b2 ← setByteChecked b1 (off + 1) (v / 256 % 256)
  let b3 ← setByteChecked b2 (off + 2) (v / 65536 % 256)
  setByteChecked b3 (off + 3) (v / 16777216 % 256)

/-- Checked `setInt16` (little-endian). -/
def setInt16Checked (buf : List Nat) (off : Nat) (v : JSVal) : Option (List Nat) := do
  let b1 ← setByteChecked buf off (toUint16Val v % 256)
  setByteChecked b1 (off + 1) (toUint16Val v / 256 % 256)

/-- Checked `writeString`. -/
def writeStringChecked (buf : List Nat) (off : Nat) :
    List Nat → Option (List Nat)
  | [] => some buf
  | c :: cs => do
      let b ← setUint8Checked buf off c
      writeStringChecked b (off + 1) cs

/-- Checked sample-quantisation loop. -/
def sampleLoopChecked : List JSVal → List Nat → Nat → Option (List Nat)
  | [], buf, _ => some buf
  | s :: rest, buf, offset => do
      let b ← setInt16Checked buf offset
        (jsMul (jsMax (some (-1)) (jsMin (some 1) s)) (some 32767))
      sampleLoopChecked rest b (offset + 2)

/-- Variant of `encodeWAV` with every `DataView` write bounds-checked, exactly the
browser semantics: `none` would mean some write threw `RangeError`. -/
def encodeWAVChecked (samples : List JSVal) (numChannels sampleRate bitDepth : Nat) :
    Option (List Nat) := do
  let bytesPerSample := bitDepth / 8
  let blockAlign := numChannels * bytesPerSample
  let buffer := List.replicate (44 + samples.length * bytesPerSample) 0
  let b1 ← writeStringChecked buffer 0 (strCodes "RIFF")
  let b2 ← setUint32Checked b1 4 (36 + samples.length * bytesPerSample)
  let b3 ← writeStringChecked b2 8 (strCodes "WAVE")
  let b4 ← writeStringChecked b3 12 (strCodes "fmt ")
  let b5 ← setUint32Checked b4 16 16
  let b6 ← setUint16Checked b5 20 1
  let b7 ← setUint16Checked b6 22 numChannels
  let b8 ← setUint32Checked b7 24 sampleRate
  let b9 ← setUint32Checked b8 28 (sampleRate * blockAlign)
  let b10 ← setUint16Checked b9 32 blockAlign
  let b11 ← setUint16Checked b10 34 bitDepth
  let b12 ← writeStringChecked b11 36 (strCodes "data")
  let b13 ← setUint32Checked b12 40 (samples.length * bytesPerSample)
  sampleLoopChecked samples b13 44

/-- Checked `quantizeAndFrame` (bit depth 16). -/
def quantizeAndFrameChecked (samples : List JSVal) (channels sampleRate : Nat) :
    Option (List Nat) :=
  encodeWAVChecked samples channels sampleRate 16

/-- The two little-endian bytes of `v mod 2^16`. -/
def le16 (v : Nat) : List Nat := [v % 256, v / 256 % 256]

/-- The four little-endian bytes of `v mod 2^32`. -/
def le32 (v : Nat) : List Nat :=
  [v % 256, v / 256 % 256, v / 65536 % 256, v / 16777216 % 256]

/-- The 16-bit pattern `encodeWAV` stores for one input sample:
clamp to [-1, 1], scale by 0x7fff, convert as `setInt16` does. -/
def quantize (s : JSVal) : Nat :=
  toUint16Val (jsMul (jsMax (some (-1)) (jsMin (some 1) s)) (some 32767))

/-- The payload bytes of the container: two little-endian bytes per
sample, in order. -/
def payloadBytes : List JSVal → List Nat
  | [] => []
  | s :: rest => le16 (quantize s) ++ payloadBytes rest

/-- The 44 header bytes `encodeWAV` produces for `n` samples,
`c` channels, rate `r`, bit depth 16 (proved below, not assumed). -/
def headerList (n c r : Nat) : List Nat :=
  strCodes "RIFF" ++ le32 (36 + n * 2) ++ strCodes "WAVE" ++
    strCodes "fmt " ++ le32 16 ++ le16 1 ++ le16 c ++ le32 r ++
    le32 (r * (c * 2)) ++ le16 (c * 2) ++ le16 16 ++ strCodes "data" ++
    le32 (n * 2)

/-! ### List helpers -/

lemma getD_set_ne {α : Type} (l : List α) (d : α) {i j : Nat} (v : α)
    (h : i ≠ j) : (l.set i v).getD j d = l.getD j d := by
  simp [List.getD_eq_getElem?_getD, List.getElem?_set_ne h]

lemma getD_set_self {α : Type} (l : List α) (d : α) {i : Nat} (v : α)
    (h : i < l.length) : (l.set i v).getD i d = v := by
  simp [List.getD_eq_getElem?_getD, List.getElem?_set_self, h]

lemma set_append_left {α : Type} (l l' : List α) {i : Nat} (v : α)
    (h : i < l.length) : (l ++ l').set i v = l.set i v ++ l' := by
  rw [List.set_append]
  simp [Nat.not_le.2 h]

/-! ### The interleave loop -/

lemma interleaveLoop_length (L R : List JSVal) (i index : Nat)
    (acc : List JSVal) : (interleaveLoop L R i index acc).length = acc.length := by
  rw [interleaveLoop]
  split
  · rw [interleaveLoop_length]
    simp [tset]
  · rfl
termination_by L.length - i

/-- Positions strictly below the running write index are never touched. -/
lemma interleaveLoop_getD_lt (L R : List JSVal) (i index j : Nat)
    (acc : List JSVal) (hj : j < index) :
    (interleaveLoop L R i index acc).getD j none = acc.getD j none := by
  rw [interleaveLoop]
  split
  · rw [interleaveLoop_getD_lt L R (i + 1) (index + 2) j _ (by omega)]
    simp only [tset]
    rw [getD_set_ne _ _ _ (by omega), getD_set_ne _ _ _ (by omega)]
  · rfl
termination_by L.length - i

/-- Positions at or beyond every index the loop will still write are never
touched: the loop writes exactly at `index, …, index + 2⬝(L.length - i) - 1`. -/
lemma interleaveLoop_getD_ge (L R : List JSVal) (i index j : Nat)
    (acc : List JSVal) (hj : index + 2 * (L.length - i) ≤ j) :
    (interleaveLoop L R i index acc).getD j none = acc.getD j none := by
  rw [interleaveLoop]
  split
  · next h =>
    rw [interleaveLoop_getD_ge L R (i + 1) (index + 2) j _ (by omega)]
    simp only [tset]
    rw [getD_set_ne _ _ _ (by omega), getD_set_ne _ _ _ (by omega)]
  · rfl
termination_by L.length - i

/-- The values the loop writes at frame `j ≥ i`, when the accumulator is
long enough for both writes to land. -/
lemma interleaveLoop_getD_write (L R : List JSVal) (i j : Nat)
    (acc : List JSVal) (hij : i ≤ j) (hj : j < L.length)
    (hacc : 2 * j + 1 < acc.length) :
    (interleaveLoop L R i (2 * i) acc).getD (2 * j) none = tget L j ∧
    (interleaveLoop L R i (2 * i) acc).getD (2 * j + 1) none = tget R j := by
  rw [interleaveLoop]
  split
  · next h =>
    rw [show 2 * i + 2 = 2 * (i + 1) by omega]
    rcases Nat.eq_or_lt_of_le hij with rfl | hlt
    · constructor
      · rw [interleaveLoop_getD_lt L R (i + 1) (2 * (i + 1)) (2 * i) _ (by omega)]
        simp only [tset]
        rw [getD_set_ne _ _ _ (by omega)]
        exact getD_set_self _ _ _ (by omega)
      · rw [interleaveLoop_getD_lt L R (i + 1) (2 * (i + 1)) (2 * i + 1) _ (by omega)]
        simp only [tset]
        exact getD_set_self _ _ _ (by rw [List.length_set]; omega)
    · exact interleaveLoop_getD_write L R (i + 1) j _ hlt hj
        (by simp only [tset, List.length_set]; omega)
  · next h => omega
termination_by L.length - i

/-- Claim **C2.** For equal-length `L` and `R` of length `n`, `interleave(L, R)`
has length `2⬝n`, with `L`'s sample at every even and `R`'s sample at every
odd position of each frame. -/
theorem interleave_spec (L R : List JSVal) (n : Nat)
    (hL : L.length = n) (hR : R.length = n) :
    (interleave L R).length = 2 * n ∧
    ∀ i, i < n →
      (interleave L R).getD (2 * i) none = L.getD i none ∧
      (interleave L R).getD (2 * i + 1) none = R.getD i none := by
  constructor
  · rw [interleave, interleaveLoop_length]
    simp only [List.length_replicate, hL, hR]
    omega
  · intro i hi
    have h := interleaveLoop_getD_write L R 0 i
      (List.replicate (L.length + R.length) (some 0)) (Nat.zero_le i)
      (by omega) (by simp only [List.length_replicate, hL, hR]; omega)
    rw [show 2 * 0 = 0 from rfl] at h
    exact ⟨h.1, h.2⟩

/-- Witness for `interleave_spec` at `L = [1, 2]`, `R = [3, 4]`. -/
theorem interleave_spec_witness :
    (interleave [some 1, some 2] [some 3, some 4]).length = 2 * 2 ∧
    (interleave [some 1, some 2] [some 3, some 4]).getD (2 * 1) none
      = ([some 1, some 2] : List JSVal).getD 1 none ∧
    (interleave [some 1, some 2] [some 3, some 4]).getD (2 * 1 + 1) none
      = ([some 3, some 4] : List JSVal).getD 1 none := by
  have h := interleave_spec [some 1, some 2] [some 3, some 4] 2 rfl rfl
  exact ⟨h.1, (h.2 1 (by omega)).1, (h.2 1 (by omega)).2⟩

/-- Claim **C10.** For arbitrary `L` and `R` (unequal lengths included),
`interleave(L, R)` has length `L.length + R.length`; every position at or
beyond `2⬝L.length` is left at the `Float32Array` zero fill; and the two
length expressions agree exactly when the inputs have equal length. -/
theorem interleave_length_general (L R : List JSVal) :
    (interleave L R).length = L.length + R.length ∧
    (∀ j, 2 * L.length ≤ j → j < L.length + R.length →
      (interleave L R).getD j none = some 0) ∧
    (L.length + R.length = 2 * L.length ↔ L.length = R.length) := by
  refine ⟨?_, ?_, by omega⟩
  · rw [interleave, interleaveLoop_length]
    simp
  · intro j h2L hLR
    rw [interleave, interleaveLoop_getD_ge L R 0 0 j _ (by omega)]
    have hlen : j < (List.replicate (L.length + R.length) (some 0 : JSVal)).length := by
      simpa using hLR
    rw [List.getD_eq_getElem _ _ hlen]
    simp

/-- Witness for `interleave_length_general` at `L = [1]`,
`R = [2, 3, 4]`: position 2 ≥ 2⬝1 is left zero. -/
theorem interleave_length_general_witness :
    (interleave [some 1] [some 2, some 3, some 4]).length = 1 + 3 ∧
    (interleave [some 1] [some 2, some 3, some 4]).getD 2 none = some 0 ∧
    (1 + 3 = 2 * 1 ↔ (1 : Nat) + 0 = 3) := by
  have h := interleave_length_general [some 1] [some 2, some 3, some 4]
  refine ⟨h.1, h.2.1 2 (by decide) (by decide), ?_⟩
  have h3 := h.2.2
  constructor
  · intro hcontra
    omega
  · intro hcontra
    omega

/-! ### Length preservation of the buffer writes -/

lemma length_setUint8 (buf : List Nat) (off v : Nat) :
    (setUint8 buf off v).length = buf.length := by simp [setUint8]

lemma length_setUint16 (buf : List Nat) (off v : Nat) :
    (setUint16 buf off v).length = buf.length := by simp [setUint16]

lemma length_setUint32 (buf : List Nat) (off v : Nat) :
    (setUint32 buf off v).length = buf.length := by simp [setUint32]

lemma length_setInt16 (buf : List Nat) (off : Nat) (v : JSVal) :
    (setInt16 buf off v).length = buf.length := by simp [setInt16]

lemma length_writeString (buf : List Nat) (off : Nat) (cs : List Nat) :
    (writeString buf off cs).length = buf.length := by
  induction cs generalizing buf off with
  | nil => rfl
  | cons c cs ih => rw [writeString, ih, length_setUint8]

lemma length_sampleLoop (ss : List JSVal) (buf : List Nat) (off : Nat) :
    (sampleLoop ss buf off).length = buf.length := by
  induction ss generalizing buf off with
  | nil => rfl
  | cons s ss ih => rw [sampleLoop, ih, length_setInt16]

/-! ### Writes inside a prefix commute with the append -/

lemma set_append_cons {α : Type} (pre : List α) (x : α) (tail : List α)
    (v : α) : (pre ++ x :: tail).set pre.length v = pre ++ v :: tail := by
  induction pre with
  | nil => rfl
  | cons a t ih =>
    simp only [List.cons_append, List.length_cons, List.set_cons_succ]
    rw [ih]

lemma set_append_cons2 {α : Type} (pre : List α) (x y : α) (tail : List α)
    (v w : α) :
    ((pre ++ x :: y :: tail).set pre.length v).set (pre.length + 1) w
      = pre ++ v :: w :: tail := by
  rw [set_append_cons]
  rw [show pre ++ v :: y :: tail = (pre ++ [v]) ++ y :: tail by simp]
  rw [show pre.length + 1 = (pre ++ [v]).length by simp]
  rw [set_append_cons]
  simp

lemma setUint8_append (pre post : List Nat) (off v : Nat)
    (h : off + 1 ≤ pre.length) :
    setUint8 (pre ++ post) off v = setUint8 pre off v ++ post := by
  simp only [setUint8]
  rw [set_append_left _ _ _ (by omega)]

lemma setUint16_append (pre post : List Nat) (off v : Nat)
    (h : off + 2 ≤ pre.length) :
    setUint16 (pre ++ post) off v = setUint16 pre off v ++ post := by
  simp only [setUint16]
  rw [set_append_left _ _ _ (by omega)]
  rw [set_append_left _ _ _ (by rw [List.length_set]; omega)]

lemma setUint32_append (pre post : List Nat) (off v : Nat)
    (h : off + 4 ≤ pre.length) :
    setUint32 (pre ++ post) off v = setUint32 pre off v ++ post := by
  simp only [setUint32]
  rw [set_append_left _ _ _ (by omega)]
  rw [set_append_left _ _ _ (by rw [List.length_set]; omega)]
  rw [set_append_left _ _ _ (by rw [List.length_set, List.length_set]; omega)]
  rw [set_append_left _ _ _
    (by rw [List.length_set, List.length_set, List.length_set]; omega)]

lemma writeString_append (pre post : List Nat) (off : Nat) (cs : List Nat)
    (h : off + cs.length ≤ pre.length) :
    writeString (pre ++ post) off cs = writeString pre off cs ++ post := by
  induction cs generalizing pre off with
  | nil => rfl
  | cons c cs ih =>
    rw [writeString, writeString]
    rw [setUint8_append _ _ _ _ (by simp at h; omega)]
    exact ih _ _ (by rw [length_setUint8]; simp at h; omega)

/-- The quantisation loop starting at the end of a fully written prefix
turns the zero fill into the payload bytes. -/
lemma sampleLoop_append (ss : List JSVal) (pre : List Nat) (off : Nat)
    (hoff : off = pre.length) :
    sampleLoop ss (pre ++ List.replicate (2 * ss.length) 0) off
      = pre ++ payloadBytes ss := by
  subst hoff
  induction ss generalizing pre with
  | nil => simp [sampleLoop, payloadBytes]
  | cons s ss ih =>
    rw [show 2 * (s :: ss).length = 2 * ss.length + 1 + 1 by
      simp [List.length_cons]; omega]
    rw [List.replicate_succ, List.replicate_succ]
    rw [sampleLoop]
    simp only [setInt16]
    rw [set_append_cons2]
    rw [show pre ++ (toUint16Val (jsMul (jsMax (some (-1)) (jsMin (some 1) s)) (some 32767)) % 256) ::
        (toUint16Val (jsMul (jsMax (some (-1)) (jsMin (some 1) s)) (some 32767)) / 256 % 256) ::
        List.replicate (2 * ss.length) 0
      = (pre ++ le16 (quantize s)) ++ List.replicate (2 * ss.length) 0 by
        simp [le16, quantize]]
    rw [show pre.length + 2 = (pre ++ le16 (quantize s)).length by
      simp [le16]]
    rw [ih]
    simp [payloadBytes]

/-- Structural characterisation of `encodeWAV` at bit depth 16: the output
is the 44 header bytes followed by the two-byte little-endian quantised
samples. -/
lemma quantizeAndFrame_eq (s : List JSVal) (c r : Nat) :
    quantizeAndFrame s c r = headerList s.length c r ++ payloadBytes s := by
  simp only [quantizeAndFrame, encodeWAV]
  rw [List.replicate_add]
  rw [writeString_append _ _ _ _ (by simp [strCodes])]
  rw [setUint32_append _ _ _ _ (by simp [length_writeString])]
  rw [writeString_append _ _ _ _
    (by simp [strCodes, length_writeString, length_setUint32])]
  rw [writeString_append _ _ _ _
    (by simp [strCodes, length_writeString, length_setUint32])]
  rw [setUint32_append _ _ _ _
    (by simp [length_writeString, length_setUint32])]
  rw [setUint16_append _ _ _ _
    (by simp [length_writeString, length_setUint32])]
  rw [setUint16_append _ _ _ _
    (by simp [length_writeString, length_setUint32, length_setUint16])]
  rw [setUint32_append _ _ _ _
    (by simp [length_writeString, length_setUint32, length_setUint16])]
  rw [setUint32_append _ _ _ _
    (by simp [length_writeString, length_setUint32, length_setUint16])]
  rw [setUint16_append _ _ _ _
    (by simp [length_writeString, length_setUint32, length_setUint16])]
  rw [setUint16_append _ _ _ _
    (by simp [length_writeString, length_setUint32, length_setUint16])]
  rw [writeString_append _ _ _ _
    (by simp [strCodes, length_writeString, length_setUint32, length_setUint16])]
  rw [setUint32_append _ _ _ _
    (by simp [length_writeString, length_setUint32, length_setUint16])]
  rw [Nat.mul_comm s.length 2]
  rw [sampleLoop_append _ _ _
    (by simp [length_writeString, length_setUint32, length_setUint16])]
  refine congrArg (fun l => l ++ payloadBytes s) ?_
  simp [headerList, le16, le32, strCodes, setUint8, setUint16, setUint32,
    writeString, List.replicate, Nat.mul_comm]

lemma length_headerList (n c r : Nat) : (headerList n c r).length = 44 := by
  simp [headerList, le16, le32, strCodes]

lemma length_payloadBytes (ss : List JSVal) :
    (payloadBytes ss).length = 2 * ss.length := by
  induction ss with
  | nil => rfl
  | cons s ss ih =>
    simp only [payloadBytes, le16, List.length_append, List.length_cons,
      List.length_nil, ih]
    omega

/-- Claim **C4.** `quantizeAndFrame` returns a buffer of exactly
`44 + samples.length⬝2` bytes, and for mono input the channel-count field
at bytes 22–23 decodes to 1. -/
theorem quantizeAndFrame_length (s : List JSVal) (c r : Nat) :
    (quantizeAndFrame s c r).length = 44 + s.length * 2 ∧
    readUInt16LE (quantizeAndFrame s 1 r) 22 = 1 := by
  constructor
  · rw [quantizeAndFrame_eq]
    simp only [List.length_append, length_headerList, length_payloadBytes]
    omega
  · rw [quantizeAndFrame_eq]
    simp [readUInt16LE, readByte, headerList, le16, le32, strCodes]

/-- Claim **C6.** The chunk-size field at offset 4 equals the total length minus
8, and the data-size field at offset 40 equals the total length minus 44. -/
theorem quantizeAndFrame_sizes (s : List JSVal) (c r : Nat)
    (hn : 36 + s.length * 2 < 2 ^ 32) :
    readUInt32LE (quantizeAndFrame s c r) 4 = (quantizeAndFrame s c r).length - 8 ∧
    readUInt32LE (quantizeAndFrame s c r) 40 = (quantizeAndFrame s c r).length - 44 := by
  have hlen : (quantizeAndFrame s c r).length = 44 + s.length * 2 := by
    rw [quantizeAndFrame_eq]
    simp only [List.length_append, length_headerList, length_payloadBytes]
    omega
  rw [hlen]
  constructor
  · rw [quantizeAndFrame_eq]
    simp [readUInt32LE, readByte, headerList, le16, le32, strCodes]
    omega
  · rw [quantizeAndFrame_eq]
    simp [readUInt32LE, readByte, headerList, le16, le32, strCodes]
    omega

/-- Witness for `quantizeAndFrame_sizes` at the empty sample sequence. -/
theorem quantizeAndFrame_sizes_witness :
    36 + ([] : List JSVal).length * 2 < 2 ^ 32 ∧
    readUInt32LE (quantizeAndFrame ([] : List JSVal) 1 8000) 4
      = (quantizeAndFrame ([] : List JSVal) 1 8000).length - 8 ∧
    readUInt32LE (quantizeAndFrame ([] : List JSVal) 1 8000) 40
      = (quantizeAndFrame ([] : List JSVal) 1 8000).length - 44 := by
  refine ⟨by decide, ?_, ?_⟩
  · exact (quantizeAndFrame_sizes [] 1 8000 (by decide)).1
  · exact (quantizeAndFrame_sizes [] 1 8000 (by decide)).2

/-- Claim **C3.** The 44-byte header matches the canonical layout field for
field, all multi-byte integers little-endian. -/
theorem quantizeAndFrame_header_layout (s : List JSVal) (c r : Nat)
    (hc : c = 1 ∨ c = 2) (hr : 0 < r) (hr32 : r < 2 ^ 32)
    (hbr : r * c * 2 < 2 ^ 32) (hn : 36 + s.length * 2 < 2 ^ 32) :
    (quantizeAndFrame s c r).take 4 = strCodes "RIFF" ∧
    readUInt32LE (quantizeAndFrame s c r) 4 = 36 + s.length * 2 ∧
    ((quantizeAndFrame s c r).drop 8).take 4 = strCodes "WAVE" ∧
    ((quantizeAndFrame s c r).drop 12).take 4 = strCodes "fmt " ∧
    readUInt32LE (quantizeAndFrame s c r) 16 = 16 ∧
    readUInt16LE (quantizeAndFrame s c r) 20 = 1 ∧
    readUInt16LE (quantizeAndFrame s c r) 22 = c ∧
    readUInt32LE (quantizeAndFrame s c r) 24 = r ∧
    readUInt32LE (quantizeAndFrame s c r) 28 = r * c * 2 ∧
    readUInt16LE (quantizeAndFrame s c r) 32 = c * 2 ∧
    readUInt16LE (quantizeAndFrame s c r) 34 = 16 ∧
    ((quantizeAndFrame s c r).drop 36).take 4 = strCodes "data" ∧
    readUInt32LE (quantizeAndFrame s c r) 40 = s.length * 2 := by
  have hbr' : r * (c * 2) < 2 ^ 32 := by rw [← Nat.mul_assoc]; exact hbr
  rw [quantizeAndFrame_eq]
  refine ⟨?_, ?_, ?_, ?_, ?_, ?_, ?_, ?_, ?_, ?_, ?_, ?_, ?_⟩
  · simp [headerList, le16, le32, strCodes]
  · simp [readUInt32LE, readByte, headerList, le16, le32, strCodes]
    omega
  · simp [headerList, le16, le32, strCodes]
  · simp [headerList, le16, le32, strCodes]
  · simp [readUInt32LE, readByte, headerList, le16, le32, strCodes]
  · simp [readUInt16LE, readByte, headerList, le16, le32, strCodes]
  · simp [readUInt16LE, readByte, headerList, le16, le32, strCodes]
    omega
  · simp [readUInt32LE, readByte, headerList, le16, le32, strCodes]
    omega
  · simp [readUInt32LE, readByte, headerList, le16, le32, strCodes]
    rw [Nat.mul_assoc]
    omega
  · simp [readUInt16LE, readByte, headerList, le16, le32, strCodes]
    omega
  · simp [readUInt16LE, readByte, headerList, le16, le32, strCodes]
  · simp [headerList, le16, le32, strCodes]
  · simp [readUInt32LE, readByte, headerList, le16, le32, strCodes]
    omega

/-- Witness for `quantizeAndFrame_header_layout`: one sample, stereo,
44100 Hz. -/
theorem quantizeAndFrame_header_layout_witness :
    ((2 : Nat) = 1 ∨ (2 : Nat) = 2) ∧ (0 : Nat) < 44100 ∧
    readUInt16LE (quantizeAndFrame [some 1] 2 44100) 22 = 2 ∧
    readUInt32LE (quantizeAndFrame [some 1] 2 44100) 24 = 44100 ∧
    readUInt32LE (quantizeAndFrame [some 1] 2 44100) 28 = 44100 * 2 * 2 := by
  have h := quantizeAndFrame_header_layout [some 1] 2 44100 (Or.inr rfl)
    (by decide) (by decide) (by decide) (by decide)
  exact ⟨Or.inr rfl, by decide, h.2.2.2.2.2.2.1, h.2.2.2.2.2.2.2.1,
    h.2.2.2.2.2.2.2.2.1⟩

/-- Claim **C8.** The header bytes 0–43 depend only on the triple
`(channels, sampleRate, sampleCount)`: two sample sequences of equal
length give bit-identical headers. -/
theorem quantizeAndFrame_header_deterministic (s1 s2 : List JSVal)
    (c r : Nat) (h : s1.length = s2.length) :
    (quantizeAndFrame s1 c r).take 44 = (quantizeAndFrame s2 c r).take 44 := by
  rw [quantizeAndFrame_eq, quantizeAndFrame_eq, h]
  rw [List.take_left' (length_headerList _ _ _),
    List.take_left' (length_headerList _ _ _)]

/-- Witness for `quantizeAndFrame_header_deterministic`: two distinct
one-sample inputs share the header. -/
theorem quantizeAndFrame_header_deterministic_witness :
    (quantizeAndFrame [some 0] 1 8000).take 44
      = (quantizeAndFrame [some 1] 1 8000).take 44 :=
  quantizeAndFrame_header_deterministic [some 0] [some 1] 1 8000 rfl

/-! ### Quantisation facts -/

lemma jsTrunc_intCast (n : ℤ) : jsTrunc ((n : ℚ)) = n := by
  unfold jsTrunc
  split <;> simp

lemma jsTrunc_err (y : ℚ) : |((jsTrunc y : ℤ) : ℚ) - y| ≤ 1 := by
  unfold jsTrunc
  split
  · have h1 := Int.floor_le y
    have h2 := Int.sub_one_lt_floor y
    rw [abs_le]
    constructor <;> push_cast at h1 h2 ⊢ <;> linarith
  · have h1 := Int.le_ceil y
    have h2 := Int.ceil_lt_add_one y
    rw [abs_le]
    constructor <;> push_cast at h1 h2 ⊢ <;> linarith

lemma quantize_some (q : ℚ) :
    quantize (some q) = (jsTrunc (max (-1) (min 1 q) * 32767) % 65536).toNat := by
  simp [quantize, jsMin, jsMax, jsMul, toUint16Val]

lemma quantize_lt (v : JSVal) : quantize v < 65536 := by
  cases v with
  | none => decide
  | some q =>
    rw [quantize_some]
    have h1 : 0 ≤ jsTrunc (max (-1) (min 1 q) * 32767) % 65536 :=
      Int.emod_nonneg _ (by decide)
    have h2 : jsTrunc (max (-1) (min 1 q) * 32767) % 65536 < 65536 :=
      Int.emod_lt_of_pos _ (by decide)
    omega

lemma clamped_bounds (q : ℚ) :
    -1 ≤ max (-1) (min 1 q) ∧ max (-1) (min 1 q) ≤ 1 := by
  constructor
  · exact le_max_left _ _
  · exact max_le (by norm_num) (min_le_left _ _)

lemma jsTrunc_clamped_bounds (q : ℚ) :
    -32767 ≤ jsTrunc (max (-1) (min 1 q) * 32767) ∧
    jsTrunc (max (-1) (min 1 q) * 32767) ≤ 32767 := by
  obtain ⟨hlo, hhi⟩ := clamped_bounds q
  have hxlo : ((-32767 : ℤ) : ℚ) ≤ max (-1) (min 1 q) * 32767 := by
    push_cast
    nlinarith
  have hxhi : max (-1) (min 1 q) * 32767 ≤ ((32767 : ℤ) : ℚ) := by
    push_cast
    nlinarith
  unfold jsTrunc
  split
  · next h =>
    constructor
    · have h1 : (0 : ℤ) ≤ ⌊max (-1) (min 1 q) * 32767⌋ := Int.floor_nonneg.mpr h
      omega
    · have h2 := Int.floor_le_floor hxhi
      rwa [Int.floor_intCast] at h2
  · next h =>
    constructor
    · have h2 := Int.ceil_le_ceil hxlo
      rwa [Int.ceil_intCast] at h2
    · have h1 : ⌈max (-1) (min 1 q) * 32767⌉ ≤ ⌈(0 : ℚ)⌉ :=
        Int.ceil_le_ceil (le_of_lt (by exact lt_of_not_ge h))
      rw [Int.ceil_zero] at h1
      omega

/-! ### Reading the payload back -/

lemma payloadBytes_getD (ss : List JSVal) (i : Nat) (hi : i < ss.length) :
    (payloadBytes ss).getD (2 * i) 0 = quantize (ss.getD i none) % 256 ∧
    (payloadBytes ss).getD (2 * i + 1) 0 = quantize (ss.getD i none) / 256 % 256 := by
  induction ss generalizing i with
  | nil => simp at hi
  | cons s ss ih =>
    cases i with
    | zero => simp [payloadBytes, le16]
    | succ i =>
      have hi' : i < ss.length := by simp at hi; omega
      constructor
      · rw [show 2 * (i + 1) = 2 * i + 1 + 1 by omega]
        simp only [payloadBytes, le16, List.cons_append, List.nil_append,
          List.getD_cons_succ]
        exact (ih i hi').1
      · rw [show 2 * (i + 1) + 1 = 2 * i + 1 + 1 + 1 by omega]
        simp only [payloadBytes, le16, List.cons_append, List.nil_append,
          List.getD_cons_succ]
        exact (ih i hi').2

lemma readUInt16LE_payload (s : List JSVal) (c r i : Nat) (hi : i < s.length) :
    readUInt16LE (quantizeAndFrame s c r) (44 + 2 * i)
      = quantize (s.getD i none) := by
  rw [quantizeAndFrame_eq]
  have h44 : (headerList s.length c r).length = 44 := length_headerList _ _ _
  have hq := quantize_lt (s.getD i none)
  have h1 := (payloadBytes_getD s i hi).1
  have h2 := (payloadBytes_getD s i hi).2
  unfold readUInt16LE readByte
  rw [List.getD_append_right _ _ _ _ (by omega),
    List.getD_append_right _ _ _ _ (by omega), h44]
  rw [show 44 + 2 * i - 44 = 2 * i by omega,
    show 44 + 2 * i + 1 - 44 = 2 * i + 1 by omega]
  rw [h1, h2]
  omega

lemma readInt16LE_payload (s : List JSVal) (c r i : Nat) (hi : i < s.length)
    (q : ℚ) (hs : s.getD i none = some q) :
    readInt16LE (quantizeAndFrame s c r) (44 + 2 * i)
      = jsTrunc (max (-1) (min 1 q) * 32767) := by
  have hb := jsTrunc_clamped_bounds q
  simp only [readInt16LE]
  rw [readUInt16LE_payload s c r i hi, hs, quantize_some]
  split <;> omega

lemma readInt16LE_single (q : ℚ) (c r : Nat) :
    readInt16LE (quantizeAndFrame [some q] c r) 44
      = jsTrunc (max (-1) (min 1 q) * 32767) := by
  have h := readInt16LE_payload [some q] c r 0 (by simp) q rfl
  simpa using h

lemma encode_three_half_eval :
    readInt16LE (quantizeAndFrame [some (3 / 2)] 1 8000) 44 = 32767 := by
  rw [readInt16LE_single]
  rw [show max (-1) (min 1 (3 / 2 : ℚ)) * 32767 = ((32767 : ℤ) : ℚ) by norm_num]
  rw [jsTrunc_intCast]

lemma encode_one_eval :
    readInt16LE (quantizeAndFrame [some 1] 1 8000) 44 = 32767 := by
  rw [readInt16LE_single]
  rw [show max (-1) (min 1 (1 : ℚ)) * 32767 = ((32767 : ℤ) : ℚ) by norm_num]
  rw [jsTrunc_intCast]

lemma encode_neg_two_eval :
    readInt16LE (quantizeAndFrame [some (-2)] 1 8000) 44 = -32767 := by
  rw [readInt16LE_single]
  rw [show max (-1) (min 1 (-2 : ℚ)) * 32767 = ((-32767 : ℤ) : ℚ) by norm_num]
  rw [jsTrunc_intCast]

lemma encode_neg_one_eval :
    readInt16LE (quantizeAndFrame [some (-1)] 1 8000) 44 = -32767 := by
  rw [readInt16LE_single]
  rw [show max (-1) (min 1 (-1 : ℚ)) * 32767 = ((-32767 : ℤ) : ℚ) by norm_num]
  rw [jsTrunc_intCast]

/-- Counterexample to claim **C1**: The claim says inputs −2.0 and −1.0 both encode
to −32768; the code's `s * 0x7fff` (no `0x8000` on the negative side)
stores −32767 for both. -/
theorem quantizeAndFrame_neg_one_counterexample :
    readInt16LE (quantizeAndFrame [some (-2)] 1 8000) 44 = -32767 ∧
    readInt16LE (quantizeAndFrame [some (-1)] 1 8000) 44 = -32767 ∧
    readInt16LE (quantizeAndFrame [some (-1)] 1 8000) 44 ≠ -32768 := by
  refine ⟨encode_neg_two_eval, encode_neg_one_eval, ?_⟩
  rw [encode_neg_one_eval]
  decide

/-- Claim **C1 (amended).** Every sample is hard-clamped to [−1, 1], scaled by
32767 and truncated toward zero; input 1.5 encodes to the same 16-bit
value as input 1.0, namely 32767, and input −2.0 encodes to the same
16-bit value as input −1.0, namely −32767 (not −32768). -/
theorem quantizeAndFrame_clamp (q : ℚ) (c r : Nat) :
    readInt16LE (quantizeAndFrame [some q] c r) 44
      = jsTrunc (max (-1) (min 1 q) * 32767) ∧
    readInt16LE (quantizeAndFrame [some (3 / 2)] 1 8000) 44
      = readInt16LE (quantizeAndFrame [some 1] 1 8000) 44 ∧
    readInt16LE (quantizeAndFrame [some 1] 1 8000) 44 = 32767 ∧
    readInt16LE (quantizeAndFrame [some (-2)] 1 8000) 44
      = readInt16LE (quantizeAndFrame [some (-1)] 1 8000) 44 ∧
    readInt16LE (quantizeAndFrame [some (-1)] 1 8000) 44 = -32767 := by
  refine ⟨readInt16LE_single q c r, ?_, encode_one_eval, ?_, encode_neg_one_eval⟩
  · rw [encode_three_half_eval, encode_one_eval]
  · rw [encode_neg_two_eval, encode_neg_one_eval]

/-- Claim **C5.** Reading any payload sample back as signed 16-bit little-endian
and dividing by 32767 lands within 1/32767 of the clamped original
sample. -/
theorem quantizeAndFrame_roundTrip (s : List ℚ) (c r i : Nat)
    (hi : i < s.length) :
    |((readInt16LE (quantizeAndFrame (s.map some) c r) (44 + 2 * i) : ℤ) : ℚ) / 32767
      - max (-1) (min 1 (s.getD i 0))| ≤ 1 / 32767 := by
  have hs : (s.map some).getD i none = some (s.getD i 0) := by
    rw [List.getD_eq_getElem _ _ (by simpa using hi), List.getD_eq_getElem _ _ hi]
    simp
  rw [readInt16LE_payload (s.map some) c r i (by simpa using hi) _ hs]
  have key : ((jsTrunc (max (-1) (min 1 (s.getD i 0)) * 32767) : ℤ) : ℚ) / 32767
      - max (-1) (min 1 (s.getD i 0))
      = (((jsTrunc (max (-1) (min 1 (s.getD i 0)) * 32767) : ℤ) : ℚ)
          - max (-1) (min 1 (s.getD i 0)) * 32767) / 32767 := by
    ring
  rw [key, abs_div]
  rw [show |(32767 : ℚ)| = 32767 from by norm_num]
  gcongr
  exact jsTrunc_err _

/-- Witness for `quantizeAndFrame_roundTrip` at the one-sample sequence
`[1/2]`. -/
theorem quantizeAndFrame_roundTrip_witness :
    0 < [(1 / 2 : ℚ)].length ∧
    |((readInt16LE (quantizeAndFrame ([(1 / 2 : ℚ)].map some) 1 8000) (44 + 2 * 0) : ℤ) : ℚ) / 32767
      - max (-1) (min 1 ([(1 / 2 : ℚ)].getD 0 0))| ≤ 1 / 32767 :=
  ⟨by simp, quantizeAndFrame_roundTrip [(1 / 2 : ℚ)] 1 8000 0 (by simp)⟩

/-! ### The checked build never throws -/

lemma setByteChecked_eq (buf : List Nat) (off v : Nat) (h : off < buf.length) :
    setByteChecked buf off v = some (buf.set off v) := by
  simp [setByteChecked, h]

lemma setUint16Checked_eq (buf : List Nat) (off v : Nat)
    (h : off + 2 ≤ buf.length) :
    setUint16Checked buf off v = some (setUint16 buf off v) := by
  have h1 : off < buf.length := by omega
  have h2 : off + 1 < buf.length := by omega
  simp [setUint16Checked, setByteChecked, setUint16, h1, h2]

lemma setUint32Checked_eq (buf : List Nat) (off v : Nat)
    (h : off + 4 ≤ buf.length) :
    setUint32Checked buf off v = some (setUint32 buf off v) := by
  have h1 : off < buf.length := by omega
  have h2 : off + 1 < buf.length := by omega
  have h3 : off + 2 < buf.length := by omega
  have h4 : off + 3 < buf.length := by omega
  simp [setUint32Checked, setByteChecked, setUint32, h1, h2, h3, h4]

lemma setInt16Checked_eq (buf : List Nat) (off : Nat) (v : JSVal)
    (h : off + 2 ≤ buf.length) :
    setInt16Checked buf off v = some (setInt16 buf off v) := by
  have h1 : off < buf.length := by omega
  have h2 : off + 1 < buf.length := by omega
  simp [setInt16Checked, setByteChecked, setInt16, h1, h2]

lemma writeStringChecked_eq (cs : List Nat) (buf : List Nat) (off : Nat)
    (h : off + cs.length ≤ buf.length) :
    writeStringChecked buf off cs = some (writeString buf off cs) := by
  induction cs generalizing buf off with
  | nil => rfl
  | cons c cs ih =>
    have h1 : off < buf.length := by simp at h; omega
    rw [writeStringChecked, writeString]
    rw [show setUint8Checked buf off c = some (setUint8 buf off c) from
      setByteChecked_eq buf off (c % 256) h1]
    simp only [Option.bind_eq_bind, Option.some_bind]
    exact ih _ _ (by rw [length_setUint8]; simp at h; omega)

lemma sampleLoopChecked_eq (ss : List JSVal) (buf : List Nat) (off : Nat)
    (h : off + 2 * ss.length ≤ buf.length) :
    sampleLoopChecked ss buf off = some (sampleLoop ss buf off) := by
  induction ss generalizing buf off with
  | nil => rfl
  | cons s ss ih =>
    rw [sampleLoopChecked, sampleLoop]
    rw [setInt16Checked_eq _ _ _ (by simp at h; omega)]
    simp only [Option.bind_eq_bind, Option.some_bind]
    exact ih _ _ (by rw [length_setInt16]; simp at h; omega)

/-- Claim **C9.** `quantizeAndFrame` is total: with every `DataView` write
bounds-checked (a failed check would be a thrown `RangeError`), the build
still succeeds and returns the complete buffer of length
`44 + samples.length⬝2`. -/
theorem quantizeAndFrame_total (s : List JSVal) (c r : Nat) :
    quantizeAndFrameChecked s c r = some (quantizeAndFrame s c r) ∧
    (quantizeAndFrame s c r).length = 44 + s.length * 2 := by
  constructor
  · simp only [quantizeAndFrameChecked, encodeWAVChecked, quantizeAndFrame,
      encodeWAV, Option.bind_eq_bind]
    rw [writeStringChecked_eq _ _ _ (by simp [strCodes] <;> omega)]
    simp only [Option.some_bind]
    rw [setUint32Checked_eq _ _ _ (by simp [length_writeString] <;> omega)]
    simp only [Option.some_bind]
    rw [writeStringChecked_eq _ _ _
      (by simp [strCodes, length_writeString, length_setUint32] <;> omega)]
    simp only [Option.some_bind]
    rw [writeStringChecked_eq _ _ _
      (by simp [strCodes, length_writeString, length_setUint32] <;> omega)]
    simp only [Option.some_bind]
    rw [setUint32Checked_eq _ _ _
      (by simp [length_writeString, length_setUint32] <;> omega)]
    simp only [Option.some_bind]
    rw [setUint16Checked_eq _ _ _
      (by simp [length_writeString, length_setUint32] <;> omega)]
    simp only [Option.some_bind]
    rw [setUint16Checked_eq _ _ _
      (by simp [length_writeString, length_setUint32, length_setUint16] <;> omega)]
    simp only [Option.some_bind]
    rw [setUint32Checked_eq _ _ _
      (by simp [length_writeString, length_setUint32, length_setUint16] <;> omega)]
    simp only [Option.some_bind]
    rw [setUint32Checked_eq _ _ _
      (by simp [length_writeString, length_setUint32, length_setUint16] <;> omega)]
    simp only [Option.some_bind]
    rw [setUint16Checked_eq _ _ _
      (by simp [length_writeString, length_setUint32, length_setUint16] <;> omega)]
    simp only [Option.some_bind]
    rw [setUint16Checked_eq _ _ _
      (by simp [length_writeString, length_setUint32, length_setUint16] <;> omega)]
    simp only [Option.some_bind]
    rw [writeStringChecked_eq _ _ _
      (by simp [strCodes, length_writeString, length_setUint32,
        length_setUint16] <;> omega)]
    simp only [Option.some_bind]
    rw [setUint32Checked_eq _ _ _
      (by simp [length_writeString, length_setUint32, length_setUint16] <;> omega)]
    simp only [Option.some_bind]
    exact sampleLoopChecked_eq _ _ _
      (by simp [length_writeString, length_setUint32, length_setUint16] <;> omega)
  · rw [quantizeAndFrame_eq]
    simp only [List.length_append, length_headerList, length_payloadBytes]
    omega

/-! ### The decode stage (`toWavBlob`, spec-modelled) -/

/-- Decode failure of the platform audio decoder (spec §7 `DecodeError`). -/
inductive DecodeError : Type
  | decodeError : DecodeError

/-- A decoded audio buffer: channel count, sample rate, and per-channel
floating-point sample data. -/
structure DecodedAudioBuffer : Type where
  numChannels : Nat
  sampleRate : Nat
  channelData : List (List JSVal)

/-- Modelled from the spec: the decode stage of `toWavBlob` (`App.jsx`
lines 6–11) concatenates the recorded chunk sequence into one blob and
hands the bytes to the platform's `decodeAudioData`, which is not part of
this repository.  The platform decoder is abstracted as a function
`platformDecode` that returns `none` exactly on byte sequences that are
not a valid compressed audio container (in particular on the empty byte
sequence, which no container format admits); `decode` fails with
`DecodeError` whenever the platform decoder rejects. -/
def decode (platformDecode : List Nat → Option DecodedAudioBuffer)
    (chunks : List (List Nat)) : Except DecodeError DecodedAudioBuffer :=
  match platformDecode chunks.flatten with
  | some buf => Except.ok buf
  | none => Except.error DecodeError.decodeError

/-- Claim **C7.** Whenever the concatenated bytes are not a valid compressed
audio container — in particular for an empty chunk sequence, whose
concatenation is the empty byte sequence — `decode` fails with
`DecodeError` and produces no output buffer. -/
theorem decode_rejects_invalid (pd : List Nat → Option DecodedAudioBuffer)
    (chunks : List (List Nat)) (hpd : pd chunks.flatten = none) :
    decode pd chunks = Except.error DecodeError.decodeError ∧
    ∀ buf, decode pd chunks ≠ Except.ok buf := by
  constructor
  · simp [decode, hpd]
  · intro buf
    simp [decode, hpd]

/-- Witness for `decode_rejects_invalid`: a decoder that rejects
everything, applied to the empty chunk sequence. -/
theorem decode_rejects_invalid_witness :
    (fun _ : List Nat => (none : Option DecodedAudioBuffer))
        (([] : List (List Nat)).flatten) = none ∧
    decode (fun _ => none) [] = Except.error DecodeError.decodeError :=
  ⟨rfl, (decode_rejects_invalid (fun _ => none) [] rfl).1⟩

end AIEyes
